import Mathlib

/-!
Verification of the glider-data file reader (`glider_parser.py`).

The Python source is shallowly embedded:
* a file is a `List String` of its lines (line terminators stripped;
  Python's `str.split` discards them, so tokenization is unaffected);
* `str.split()` with no argument becomes `pySplit` (split on runs of
  whitespace, dropping empty pieces);
* `int(...)` becomes `pyInt?` (returns `none` where Python raises
  `ValueError`);
* Python `dict` stores become association lists with update-in-place
  semantics (`dictSet` / `dictGet?`);
* `numpy.array(...).shape[1]` over a list of token rows becomes `shape1?`
  (returns `none` exactly where the attribute access raises `IndexError`:
  an empty list or ragged rows, which build a 1-D object array);
* each fallible step returns `Except PyError`.

`GliderParsedData._read_header` is `readHeaderLoop` / `readHeader`,
`GliderParsedData._read_data` is `readData`,
`GliderParsedData.__init__` is `gliderInit`,
`CtdDataParticle.build_parsed_values` is `buildParsedValues` (with
`extractLoop` as the value of its local `result` accumulator).
-/

/-- The characters Python's argumentless `str.split` treats as whitespace. -/
def isPySpace (c : Char) : Bool :=
  c = ' ' || c = '\t' || c = '\n' || c = '\r' || c = '\x0b' || c = '\x0c'

/-- Worker for `pySplit`: accumulates the current token in reverse. -/
def splitWSAux : List Char → List Char → List (List Char)
  | [], acc => if acc = [] then [] else [acc.reverse]
  | c :: cs, acc =>
    if isPySpace c then
      if acc = [] then splitWSAux cs [] else acc.reverse :: splitWSAux cs []
    else
      splitWSAux cs (c :: acc)

/-- Python `s.split()` with no separator: split on whitespace runs, no empty tokens. -/
def pySplit (s : String) : List String :=
  (splitWSAux s.data []).map (fun cs => ⟨cs⟩)

/-- Python `s[:-1]`: drop the final character (identity on the empty string). -/
def pyDropLast (s : String) : String := ⟨s.data.dropLast⟩

/-- Strip `isPySpace` characters from both ends of a character list. -/
def pyTrim (cs : List Char) : List Char :=
  ((cs.dropWhile isPySpace).reverse.dropWhile isPySpace).reverse

/-- Accumulate a decimal value; `none` on the first non-digit character. -/
def digitsVal : List Char → Nat → Option Nat
  | [], acc => some acc
  | c :: cs, acc =>
    if c.isDigit then digitsVal cs (10 * acc + (c.toNat - 48)) else none

/-- Python `int(s)` on decimal text: optional surrounding whitespace, optional
sign, at least one digit; `none` where Python raises `ValueError`. -/
def pyInt? (s : String) : Option Int :=
  match pyTrim s.data with
  | [] => none
  | '-' :: rest =>
    if rest = [] then none else (digitsVal rest 0).map (fun n => -(n : Int))
  | '+' :: rest =>
    if rest = [] then none else (digitsVal rest 0).map (fun n => (n : Int))
  | rest => (digitsVal rest 0).map (fun n => (n : Int))

/-- Python `d[k] = v` on a dict modelled as an association list: replace the
value in place if the key is present, otherwise append the new entry. -/
def dictSet {α : Type} : List (String × α) → String → α → List (String × α)
  | [], k, v => [(k, v)]
  | (k2, v2) :: rest, k, v =>
    if k2 = k then (k, v) :: rest else (k2, v2) :: dictSet rest k v

/-- Python `d[k]` lookup (as an `Option`; `none` is Python's `KeyError`). -/
def dictGet? {α : Type} (d : List (String × α)) (k : String) : Option α :=
  (d.find? (fun p => p.1 = k)).map (fun p => p.2)

/-- Python `k in d` for the modelled dict. -/
def hasKey {α : Type} (d : List (String × α)) (k : String) : Bool :=
  (dictGet? d k).isSome

/-- Python `x in l` for a list of strings. -/
def pyMem (x : String) (l : List String) : Bool :=
  l.any (fun y => y = x)

/-- The Python exceptions the embedded code can raise. -/
inductive PyError where
  | indexError
  | valueError
  | keyError (key : String)
deriving DecidableEq

/-- One loop of `GliderParsedData._read_header`:

    num_hdr_lines = 14
    hdr_line = 1
    while hdr_line <= num_hdr_lines:
        line = self._fid.readline()
        split_line = line.split()
        if 'num_ascii_tags' in split_line:
            num_hdr_lines = int(split_line[1])
        self.hdr_dict[split_line[0][:-1]] = split_line[1]
        hdr_line += 1

`readline` past end-of-file yields `""`, whose split is `[]`, so
`split_line[0]` raises `IndexError`; for a one-token line, `split_line[1]`
raises `IndexError` (in `int(...)` when the override fires, in the store
otherwise).  Returns the final dict together with the unconsumed lines. -/
def readHeaderLoop :
    List String → Int → Int → List (String × String) →
    Except PyError (List (String × String) × List String)
  | [], hdrLine, numHdrLines, d =>
    if hdrLine ≤ numHdrLines then .error .indexError else .ok (d, [])
  | line :: rest, hdrLine, numHdrLines, d =>
    if hdrLine ≤ numHdrLines then
      match pySplit line with
      | t0 :: t1 :: ts =>
        if pyMem "num_ascii_tags" (t0 :: t1 :: ts) then
          match pyInt? t1 with
          | some n2 => readHeaderLoop rest (hdrLine + 1) n2 (dictSet d (pyDropLast t0) t1)
          | none => .error .valueError
        else
          readHeaderLoop rest (hdrLine + 1) numHdrLines (dictSet d (pyDropLast t0) t1)
      | _ =>
        -- zero or one token: `split_line[0]` resp. `split_line[1]` raises
        .error .indexError
    else
      .ok (d, line :: rest)

/-- Embeds `GliderParsedData._read_header`: the loop started at `hdr_line = 1` with
the default expected count of 14 and an empty `hdr_dict`. -/
def readHeader (lines : List String) :
    Except PyError (List (String × String) × List String) :=
  readHeaderLoop lines 1 14 []

/-- One entry of `data_dict`: the sub-dictionary
`{'Name': ..., 'Units': ..., 'Number_of_Bytes': ..., 'Data': ...}`. -/
structure ColumnRecord where
  name : String
  units : String
  numberOfBytes : Int
  data : List String
deriving DecidableEq

/-- Python `readline()` on the remaining lines: `""` once the file is exhausted. -/
def readLine : List String → String × List String
  | [] => ("", [])
  | l :: rest => (l, rest)

/-- Embeds `numpy.array(data).shape[1]` for `data` a list of token rows (strings):
equal-length rows build a 2-D array whose second dimension is the common row
length; an empty list or ragged rows build a 1-D (object) array, where
`shape[1]` raises `IndexError` (`none` here). -/
def shape1? : List (List String) → Option Nat
  | [] => none
  | r :: rs => if rs.all (fun r2 => r2.length == r.length) then some r.length else none

/-- The `ii`-th numpy column `data_array[:, ii]` of a rectangular token array. -/
def colData (d : List (List String)) (ii : Nat) : List String :=
  d.map (fun r => r.getD ii "")

/-- One iteration `ii` of the extraction loop in `_read_data`:

    self.data_dict[column_labels[ii]] = {
        'Name': column_labels[ii],
        'Units': column_type[ii],
        'Number_of_Bytes': int(column_num_bytes[ii]),
        'Data': data_array[:, ii]
    }

Out-of-range indexing raises `IndexError`; `int` on non-numeric text raises
`ValueError`; the column slice needs `ii < w` (the array's second dimension). -/
def colStep (labels types bytes : List String) (d : List (List String)) (w : Nat)
    (dict : List (String × ColumnRecord)) (ii : Nat) :
    Except PyError (List (String × ColumnRecord)) :=
  match labels.get? ii with
  | none => .error .indexError
  | some name =>
    match types.get? ii with
    | none => .error .indexError
    | some u =>
      match bytes.get? ii with
      | none => .error .indexError
      | some b =>
        match pyInt? b with
        | none => .error .valueError
        | some nb =>
          if ii < w then
            .ok (dictSet dict name ⟨name, u, nb, colData d ii⟩)
          else .error .indexError

/-- The loop `for ii in range(num_columns)` over an explicit index list. -/
def buildFrom (labels types bytes : List String) (d : List (List String)) (w : Nat)
    (dict : List (String × ColumnRecord)) :
    List Nat → Except PyError (List (String × ColumnRecord))
  | [] => .ok dict
  | ii :: rest =>
    match colStep labels types bytes d w dict ii with
    | .error e => .error e
    | .ok dict2 => buildFrom labels types bytes d w dict2 rest

/-- Embeds `GliderParsedData._read_data`: three metadata lines via `readline()`, then
all remaining lines split into token rows, then

    num_columns = int(self.hdr_dict['sensors_per_cycle'])
    if num_columns != data_array.shape[1]: warnings.warn(...)
    for ii in range(num_columns): ...
    self.data_keys = column_labels

Returns `(data_dict, data_keys, warning)` where `warning = some (declared,
actual)` records the emitted `warnings.warn` payload, `none` if no warning
fired.  `range` of a negative `int` is empty, hence `Int.toNat`. -/
def readData (lines : List String) (hdr : List (String × String)) :
    Except PyError (List (String × ColumnRecord) × List String × Option (Int × Int)) :=
  let p1 := readLine lines
  let p2 := readLine p1.2
  let p3 := readLine p2.2
  let column_labels := pySplit p1.1
  let column_type := pySplit p2.1
  let column_num_bytes := pySplit p3.1
  let data := p3.2.map pySplit
  match dictGet? hdr "sensors_per_cycle" with
  | none => .error (.keyError "sensors_per_cycle")
  | some s =>
    match pyInt? s with
    | none => .error .valueError
    | some n =>
      match shape1? data with
      | none => .error .indexError
      | some w =>
        let warn : Option (Int × Int) := if n = (w : Int) then none else some (n, (w : Int))
        match buildFrom column_labels column_type column_num_bytes data w []
            (List.range n.toNat) with
        | .error e => .error e
        | .ok dict => .ok (dict, column_labels, warn)

/-- The state `GliderParsedData.__init__` leaves behind. -/
structure ParseResult where
  hdrDict : List (String × String)
  dataDict : List (String × ColumnRecord)
  dataKeys : List String
  warned : Option (Int × Int)

/-- Result of the whole constructor run, plus whether `self._fid.close()`
was reached. -/
structure ParseOutcome where
  result : Except PyError ParseResult
  closed : Bool

/-- Embeds `GliderParsedData.__init__` after `open`:

    self._read_header()
    self._read_data()
    self._fid.close()

There is no `try/finally`, so `close` runs only when both phases return. -/
def gliderInit (lines : List String) : ParseOutcome :=
  match readHeader lines with
  | .error e => ⟨.error e, false⟩
  | .ok hd =>
    match readData hd.2 hd.1 with
    | .error e => ⟨.error e, false⟩
    | .ok r => ⟨.ok ⟨hd.1, r.1, r.2.1, r.2.2⟩, true⟩

/-- Whether a constructor run succeeded. -/
def exceptOk : Except PyError ParseResult → Bool
  | .ok _ => true
  | .error _ => false

/-- The value of the local `result` list in
`CtdDataParticle.build_parsed_values`:

    result = []
    for key in <schema>:
        result.append({
            DataParticleKey.VALUE_ID: key,
            DataParticleKey.VALUE: gpd.data_dict[key]['Data']})

A missing key raises `KeyError(key)` at `gpd.data_dict[key]`. -/
def extractLoop (dict : List (String × ColumnRecord)) :
    List String → Except PyError (List (String × List String))
  | [] => .ok []
  | key :: rest =>
    match dictGet? dict key with
    | none => .error (.keyError key)
    | some col =>
      match extractLoop dict rest with
      | .error e => .error e
      | .ok ps => .ok ((key, col.data) :: ps)

/-- Embeds `CtdDataParticle.build_parsed_values` itself: it populates `result` but
contains no `return` statement, so a successful call returns Python's `None`
(`Option.none` here); exceptions from the loop propagate. -/
def buildParsedValues (dict : List (String × ColumnRecord)) (schema : List String) :
    Except PyError (Option (List (String × List String))) :=
  match extractLoop dict schema with
  | .error e => .error e
  | .ok _ => .ok none

/-- The tokens a consumer reads back for data-row `j` by walking the first
`k` column labels in file order and taking entry `j` of each stored column. -/
def storedRow (dict : List (String × ColumnRecord)) (labels : List String)
    (k j : Nat) : List String :=
  (List.range k).map
    (fun ii => ((dictGet? dict (labels.getD ii "")).map (fun c => c.data.getD j "")).getD "")

/-- Re-join tokens with single spaces (the claimed round-trip direction). -/
def spaceJoin : List String → String
  | [] => ""
  | [t] => t
  | t :: ts => t ++ " " ++ spaceJoin ts

/-! ### Association-list lemmas -/

theorem dictGet?_dictSet_self {α : Type} (d : List (String × α)) (k : String) (v : α) :
    dictGet? (dictSet d k v) k = some v := by
  induction d with
  | nil => simp [dictSet, dictGet?]
  | cons p rest ih =>
    obtain ⟨k2, v2⟩ := p
    by_cases h : k2 = k
    · simp [dictSet, dictGet?, h]
    · simp only [dictSet, if_neg h]
      simpa [dictGet?, List.find?, h] using ih

theorem dictGet?_dictSet_ne {α : Type} (d : List (String × α)) (k x : String) (v : α)
    (h : k ≠ x) : dictGet? (dictSet d k v) x = dictGet? d x := by
  induction d with
  | nil => simp [dictSet, dictGet?, List.find?, h]
  | cons p rest ih =>
    obtain ⟨k2, v2⟩ := p
    by_cases h2 : k2 = k
    · subst h2
      simp [dictSet, dictGet?, List.find?, h]
    · simp only [dictSet, if_neg h2]
      by_cases h3 : k2 = x
      · simp [dictGet?, List.find?, h3]
      · simpa [dictGet?, List.find?, h3] using ih

theorem hasKey_dictSet {α : Type} (d : List (String × α)) (k x : String) (v : α) :
    hasKey (dictSet d k v) x = true ↔ x = k ∨ hasKey d x = true := by
  by_cases h : k = x
  · subst h
    simp [hasKey, dictGet?_dictSet_self]
  · rw [hasKey, dictGet?_dictSet_ne d k x v h, ← hasKey]
    simp [Ne.symm h]

/-! ### List index lemmas -/

theorem get?_eq_some_getD {α : Type} :
    ∀ (l : List α) (i : Nat) (dflt : α), i < l.length → l.get? i = some (l.getD i dflt)
  | _ :: _, 0, _, _ => rfl
  | _ :: l, i + 1, dflt, h => get?_eq_some_getD l i dflt (Nat.lt_of_succ_lt_succ h)

theorem mem_take_iff_getD {α : Type} :
    ∀ (l : List α) (k : Nat) (dflt : α), k ≤ l.length →
      ∀ x, x ∈ l.take k ↔ ∃ ii, ii < k ∧ l.getD ii dflt = x := by
  intro l
  induction l with
  | nil =>
    intro k dflt hk x
    have : k = 0 := by simpa using hk
    subst this
    simp
  | cons a l ih =>
    intro k dflt hk x
    cases k with
    | zero => simp
    | succ k =>
      simp only [List.take_succ_cons, List.mem_cons]
      rw [ih k dflt (by simpa using hk) x]
      constructor
      · rintro (rfl | ⟨ii, hii, hgd⟩)
        · exact ⟨0, by omega, rfl⟩
        · exact ⟨ii + 1, by omega, hgd⟩
      · rintro ⟨ii, hii, hgd⟩
        cases ii with
        | zero => exact Or.inl hgd.symm
        | succ ii => exact Or.inr ⟨ii, by omega, hgd⟩

theorem range_map_getD {α : Type} :
    ∀ (l : List α) (k : Nat) (dflt : α), k ≤ l.length →
      (List.range k).map (fun i => l.getD i dflt) = l.take k := by
  intro l
  induction l with
  | nil =>
    intro k dflt hk
    have : k = 0 := by simpa using hk
    subst this
    simp
  | cons a l ih =>
    intro k dflt hk
    cases k with
    | zero => simp
    | succ k =>
      rw [List.range_succ_eq_map, List.map_cons, List.map_map]
      show a :: (List.range k).map (fun i => l.getD i dflt) = a :: l.take k
      rw [ih k dflt (by simpa using hk)]

theorem get?_take_lt {α : Type} :
    ∀ (l : List α) (k i : Nat), i < k → (l.take k).get? i = l.get? i
  | [], k, i, _ => by simp
  | _ :: _, k + 1, 0, _ => rfl
  | _ :: l, k + 1, i + 1, h => get?_take_lt l k i (Nat.lt_of_succ_lt_succ h)

theorem get?_mem_of_some {α : Type} :
    ∀ (l : List α) (i : Nat) (a : α), l.get? i = some a → a ∈ l
  | b :: _, 0, a, h => by
    simp only [List.get?] at h
    exact (Option.some_inj.mp h) ▸ List.mem_cons_self b _
  | _ :: l, i + 1, a, h => List.mem_cons_of_mem _ (get?_mem_of_some l i a h)

theorem nodup_get?_inj {α : Type} :
    ∀ (l : List α), l.Nodup → ∀ i j a, l.get? i = some a → l.get? j = some a → i = j := by
  intro l
  induction l with
  | nil => intro _ i j a h; simp at h
  | cons b l ih =>
    intro hnd i j a hi hj
    rw [List.nodup_cons] at hnd
    match i, j with
    | 0, 0 => rfl
    | 0, j + 1 =>
      exfalso
      simp only [List.get?] at hi hj
      exact hnd.1 ((Option.some_inj.mp hi) ▸ get?_mem_of_some l j a hj)
    | i + 1, 0 =>
      exfalso
      simp only [List.get?] at hi hj
      exact hnd.1 ((Option.some_inj.mp hj) ▸ get?_mem_of_some l i a hi)
    | i + 1, j + 1 =>
      simp only [List.get?] at hi hj
      exact congrArg (· + 1) (ih hnd.2 i j a hi hj)

theorem map_getD_lt {α β : Type} :
    ∀ (l : List α) (f : α → β) (i : Nat) (d1 : α) (d2 : β), i < l.length →
      (l.map f).getD i d2 = f (l.getD i d1)
  | _ :: _, _, 0, _, _, _ => rfl
  | _ :: l, f, i + 1, d1, d2, h => map_getD_lt l f i d1 d2 (Nat.lt_of_succ_lt_succ h)

theorem shape1?_len (d : List (List String)) (w : Nat) (h : shape1? d = some w) :
    ∀ r ∈ d, r.length = w := by
  cases d with
  | nil => simp [shape1?] at h
  | cons r rs =>
    rw [shape1?] at h
    by_cases hall : rs.all (fun r2 => r2.length == r.length) = true
    · rw [if_pos hall] at h
      obtain rfl : r.length = w := Option.some_inj.mp h
      intro r2 hr2
      rcases List.mem_cons.mp hr2 with rfl | hr2
      · rfl
      · have hb : (r2.length == r.length) = true := by
          simpa using List.all_eq_true.mp hall r2 hr2
        exact beq_iff_eq.mp hb
    · rw [if_neg hall] at h
      exact absurd h (by simp)

/-! ### Characterising the column-building loop of `_read_data` -/

/-- Index `ii` can be processed by `colStep` without raising. -/
def stepValid (labels types bytes : List String) (w ii : Nat) : Prop :=
  ii < labels.length ∧ ii < types.length ∧ ii < bytes.length ∧
    (pyInt? (bytes.getD ii "")).isSome = true ∧ ii < w

theorem colStep_ok (labels types bytes : List String) (d : List (List String)) (w : Nat)
    (dict : List (String × ColumnRecord)) (ii : Nat)
    (h : stepValid labels types bytes w ii) :
    ∃ nb, pyInt? (bytes.getD ii "") = some nb ∧
      colStep labels types bytes d w dict ii
        = .ok (dictSet dict (labels.getD ii "")
            ⟨labels.getD ii "", types.getD ii "", nb, colData d ii⟩) := by
  obtain ⟨h1, h2, h3, h4, h5⟩ := h
  obtain ⟨nb, hnb⟩ := Option.isSome_iff_exists.mp h4
  refine ⟨nb, hnb, ?_⟩
  rw [colStep, get?_eq_some_getD labels ii "" h1, get?_eq_some_getD types ii "" h2,
    get?_eq_some_getD bytes ii "" h3]
  simp only [hnb, if_pos h5]

theorem colStep_ok_inv (labels types bytes : List String) (d : List (List String)) (w : Nat)
    (dict dict2 : List (String × ColumnRecord)) (ii : Nat)
    (h : colStep labels types bytes d w dict ii = .ok dict2) :
    ∃ name u b nb, labels.get? ii = some name ∧ types.get? ii = some u ∧
      bytes.get? ii = some b ∧ pyInt? b = some nb ∧
      dict2 = dictSet dict name ⟨name, u, nb, colData d ii⟩ := by
  rw [colStep] at h
  rcases hname : labels.get? ii with _ | name <;> simp only [hname] at h
  · exact absurd h (by simp)
  rcases hu : types.get? ii with _ | u <;> simp only [hu] at h
  · exact absurd h (by simp)
  rcases hb : bytes.get? ii with _ | b <;> simp only [hb] at h
  · exact absurd h (by simp)
  rcases hnb : pyInt? b with _ | nb <;> simp only [hnb] at h
  · exact absurd h (by simp)
  by_cases hw : ii < w
  · rw [if_pos hw] at h
    exact ⟨name, u, b, nb, rfl, rfl, rfl, hnb, ((Except.ok.injEq _ _).mp h).symm⟩
  · rw [if_neg hw] at h
    exact absurd h (by simp)

theorem buildFrom_ok (labels types bytes : List String) (d : List (List String)) (w : Nat) :
    ∀ (idxs : List Nat) (dict : List (String × ColumnRecord)),
      (∀ ii ∈ idxs, stepValid labels types bytes w ii) →
      ∃ dd, buildFrom labels types bytes d w dict idxs = .ok dd ∧
        ∀ x, (hasKey dd x = true ↔
          hasKey dict x = true ∨ ∃ ii ∈ idxs, labels.getD ii "" = x) := by
  intro idxs
  induction idxs with
  | nil =>
    intro dict _
    exact ⟨dict, rfl, by simp⟩
  | cons ii rest ih =>
    intro dict hval
    obtain ⟨nb, hnb, hstep⟩ :=
      colStep_ok labels types bytes d w dict ii (hval ii (List.mem_cons_self ii rest))
    obtain ⟨dd, hdd, hkeys⟩ :=
      ih (dictSet dict (labels.getD ii "")
          ⟨labels.getD ii "", types.getD ii "", nb, colData d ii⟩)
        (fun jj hjj => hval jj (List.mem_cons_of_mem ii hjj))
    refine ⟨dd, ?_, ?_⟩
    · rw [buildFrom, hstep]
      exact hdd
    · intro x
      rw [hkeys x, hasKey_dictSet]
      simp only [List.mem_cons]
      constructor
      · rintro ((rfl | hx) | ⟨jj, hjj, hgd⟩)
        · exact Or.inr ⟨ii, Or.inl rfl, rfl⟩
        · exact Or.inl hx
        · exact Or.inr ⟨jj, Or.inr hjj, hgd⟩
      · rintro (hx | ⟨jj, (rfl | hjj), hgd⟩)
        · exact Or.inl (Or.inr hx)
        · exact Or.inl (Or.inl hgd.symm)
        · exact Or.inr ⟨jj, hjj, hgd⟩

theorem buildFrom_preserve (labels types bytes : List String) (d : List (List String))
    (w : Nat) :
    ∀ (idxs : List Nat) (dict dd : List (String × ColumnRecord)) (x : String),
      buildFrom labels types bytes d w dict idxs = .ok dd →
      (∀ jj ∈ idxs, ∀ nm, labels.get? jj = some nm → nm ≠ x) →
      dictGet? dd x = dictGet? dict x := by
  intro idxs
  induction idxs with
  | nil =>
    intro dict dd x h _
    rw [buildFrom] at h
    injection h with h2
    rw [h2]
  | cons ii rest ih =>
    intro dict dd x h hne
    rw [buildFrom] at h
    rcases hstep : colStep labels types bytes d w dict ii with e | dict2 <;> rw [hstep] at h
    · exact absurd h (by simp)
    obtain ⟨name, u, b, nb, hname, _, _, _, rfl⟩ :=
      colStep_ok_inv labels types bytes d w dict dict2 ii hstep
    rw [ih _ dd x h (fun jj hjj => hne jj (List.mem_cons_of_mem ii hjj)),
      dictGet?_dictSet_ne _ _ _ _ (hne ii (List.mem_cons_self ii rest) name hname)]

theorem buildFrom_lookup (labels types bytes : List String) (d : List (List String))
    (w : Nat) :
    ∀ (idxs : List Nat) (dict dd : List (String × ColumnRecord)) (ii : Nat)
      (name u b : String) (nb : Int),
      buildFrom labels types bytes d w dict idxs = .ok dd →
      idxs.Nodup → ii ∈ idxs →
      labels.get? ii = some name → types.get? ii = some u →
      bytes.get? ii = some b → pyInt? b = some nb →
      (∀ jj ∈ idxs, labels.get? jj = some name → jj = ii) →
      dictGet? dd name = some ⟨name, u, nb, colData d ii⟩ := by
  intro idxs
  induction idxs with
  | nil =>
    intro dict dd ii name u b nb _ _ hmem
    exact absurd hmem (by simp)
  | cons jj0 rest ih =>
    intro dict dd ii name u b nb h hnd hmem hname hu hb hnb huniq
    rw [buildFrom] at h
    rcases hstep : colStep labels types bytes d w dict jj0 with e | dict2 <;>
      rw [hstep] at h
    · exact absurd h (by simp)
    rw [List.nodup_cons] at hnd
    rcases List.mem_cons.mp hmem with rfl | hmem2
    · -- the column is written by this very step …
      obtain ⟨name0, u0, b0, nb0, hname0, hu0, hb0, hnb0, rfl⟩ :=
        colStep_ok_inv labels types bytes d w dict dict2 ii hstep
      obtain rfl : name = name0 := Option.some_inj.mp (hname.symm.trans hname0)
      obtain rfl : u = u0 := Option.some_inj.mp (hu.symm.trans hu0)
      obtain rfl : b = b0 := Option.some_inj.mp (hb.symm.trans hb0)
      obtain rfl : nb = nb0 := Option.some_inj.mp (hnb.symm.trans hnb0)
      -- … and no later step touches that key again
      have hpres := buildFrom_preserve labels types bytes d w rest _ dd name h
        (fun jj hjj nm hnm => by
          intro hnmx
          subst hnmx
          exact hnd.1 ((huniq jj (List.mem_cons_of_mem ii hjj) hnm) ▸ hjj))
      rw [hpres, dictGet?_dictSet_self]
    · exact ih dict2 dd ii name u b nb h hnd.2 hmem2 hname hu hb hnb
        (fun jj hjj => huniq jj (List.mem_cons_of_mem jj0 hjj))

/-! ### `_read_data` on well-formed input -/

theorem readData_ok_keys (l1 l2 l3 : String) (rows : List String)
    (hdr : List (String × String)) (s : String) (n : Int) (w : Nat)
    (hs : dictGet? hdr "sensors_per_cycle" = some s)
    (hn : pyInt? s = some n)
    (hw : shape1? (rows.map pySplit) = some w)
    (hkL : n.toNat ≤ (pySplit l1).length)
    (hkT : n.toNat ≤ (pySplit l2).length)
    (hkB : n.toNat ≤ (pySplit l3).length)
    (hkw : n.toNat ≤ w)
    (hB : ∀ b ∈ (pySplit l3).take n.toNat, (pyInt? b).isSome = true) :
    ∃ dd, readData (l1 :: l2 :: l3 :: rows) hdr
        = .ok (dd, pySplit l1, if n = (w : Int) then none else some (n, (w : Int)))
      ∧ ∀ x, (hasKey dd x = true ↔ x ∈ (pySplit l1).take n.toNat) := by
  have hval : ∀ ii ∈ List.range n.toNat,
      stepValid (pySplit l1) (pySplit l2) (pySplit l3) w ii := by
    intro ii hii
    rw [List.mem_range] at hii
    refine ⟨by omega, by omega, by omega, ?_, by omega⟩
    exact hB _ ((mem_take_iff_getD (pySplit l3) n.toNat "" hkB _).mpr ⟨ii, hii, rfl⟩)
  obtain ⟨dd, hdd, hkeys⟩ :=
    buildFrom_ok (pySplit l1) (pySplit l2) (pySplit l3) (rows.map pySplit) w
      (List.range n.toNat) [] hval
  refine ⟨dd, ?_, ?_⟩
  · rw [readData]
    simp only [readLine, hs, hn, hw, hdd]
  · intro x
    have hmem : (∃ ii ∈ List.range n.toNat, (pySplit l1).getD ii "" = x)
        ↔ x ∈ (pySplit l1).take n.toNat := by
      constructor
      · rintro ⟨ii, hii, hgd⟩
        exact (mem_take_iff_getD (pySplit l1) n.toNat "" hkL x).mpr
          ⟨ii, List.mem_range.mp hii, hgd⟩
      · intro hx
        obtain ⟨ii, hii, hgd⟩ := (mem_take_iff_getD (pySplit l1) n.toNat "" hkL x).mp hx
        exact ⟨ii, List.mem_range.mpr hii, hgd⟩
    rw [hkeys x]
    have h0 : hasKey ([] : List (String × ColumnRecord)) x = false := rfl
    rw [h0]
    simp only [Bool.false_eq_true, false_or]
    exact hmem

theorem readData_lookup (l1 l2 l3 : String) (rows : List String)
    (hdr : List (String × String)) (s : String) (n : Int) (w : Nat)
    (hs : dictGet? hdr "sensors_per_cycle" = some s)
    (hn : pyInt? s = some n)
    (hw : shape1? (rows.map pySplit) = some w)
    (hkL : n.toNat ≤ (pySplit l1).length)
    (hkT : n.toNat ≤ (pySplit l2).length)
    (hkB : n.toNat ≤ (pySplit l3).length)
    (hkw : n.toNat ≤ w)
    (hB : ∀ b ∈ (pySplit l3).take n.toNat, (pyInt? b).isSome = true)
    (hnd : ((pySplit l1).take n.toNat).Nodup) :
    ∃ dd warn, readData (l1 :: l2 :: l3 :: rows) hdr = .ok (dd, pySplit l1, warn)
      ∧ ∀ ii, ii < n.toNat → ∃ nb, pyInt? ((pySplit l3).getD ii "") = some nb ∧
          dictGet? dd ((pySplit l1).getD ii "")
            = some ⟨(pySplit l1).getD ii "", (pySplit l2).getD ii "", nb,
                colData (rows.map pySplit) ii⟩ := by
  have hval : ∀ ii ∈ List.range n.toNat,
      stepValid (pySplit l1) (pySplit l2) (pySplit l3) w ii := by
    intro ii hii
    rw [List.mem_range] at hii
    refine ⟨by omega, by omega, by omega, ?_, by omega⟩
    exact hB _ ((mem_take_iff_getD (pySplit l3) n.toNat "" hkB _).mpr ⟨ii, hii, rfl⟩)
  obtain ⟨dd, hdd, _⟩ :=
    buildFrom_ok (pySplit l1) (pySplit l2) (pySplit l3) (rows.map pySplit) w
      (List.range n.toNat) [] hval
  refine ⟨dd, if n = (w : Int) then none else some (n, (w : Int)), ?_, ?_⟩
  · rw [readData]
    simp only [readLine, hs, hn, hw, hdd]
  · intro ii hii
    obtain ⟨nb, hnb⟩ := Option.isSome_iff_exists.mp
      (hB _ ((mem_take_iff_getD (pySplit l3) n.toNat "" hkB _).mpr ⟨ii, hii, rfl⟩))
    refine ⟨nb, hnb, ?_⟩
    have huniq : ∀ jj ∈ List.range n.toNat,
        (pySplit l1).get? jj = some ((pySplit l1).getD ii "") → jj = ii := by
      intro jj hjj hgetjj
      rw [List.mem_range] at hjj
      refine nodup_get?_inj _ hnd jj ii ((pySplit l1).getD ii "") ?_ ?_
      · rw [get?_take_lt (pySplit l1) n.toNat jj hjj]
        exact hgetjj
      · rw [get?_take_lt (pySplit l1) n.toNat ii hii]
        exact get?_eq_some_getD (pySplit l1) ii "" (by omega)
    exact buildFrom_lookup (pySplit l1) (pySplit l2) (pySplit l3) (rows.map pySplit) w
      (List.range n.toNat) [] dd ii ((pySplit l1).getD ii "") ((pySplit l2).getD ii "")
      ((pySplit l3).getD ii "") nb hdd (List.nodup_range _) (List.mem_range.mpr hii)
      (get?_eq_some_getD _ ii "" (by omega)) (get?_eq_some_getD _ ii "" (by omega))
      (get?_eq_some_getD _ ii "" (by omega)) hnb huniq

theorem readData_ragged (l1 l2 l3 : String) (rows : List String)
    (hdr : List (String × String)) (s : String) (n : Int)
    (hs : dictGet? hdr "sensors_per_cycle" = some s)
    (hn : pyInt? s = some n)
    (hragged : shape1? (rows.map pySplit) = none) :
    readData (l1 :: l2 :: l3 :: rows) hdr = .error .indexError := by
  rw [readData]
  simp only [readLine, hs, hn, hragged]

/-! ### `_read_header` without an effective override -/

theorem readHeaderLoop_no_override :
    ∀ (m : Nat) (lines : List String) (hdrLine numHdrLines : Int)
      (d : List (String × String)),
      (m : Int) = numHdrLines + 1 - hdrLine →
      m ≤ lines.length →
      (∀ l ∈ lines.take m, 2 ≤ (pySplit l).length ∧
        pyMem "num_ascii_tags" (pySplit l) = false) →
      ∃ d2, readHeaderLoop lines hdrLine numHdrLines d = .ok (d2, lines.drop m) := by
  intro m
  induction m with
  | zero =>
    intro lines hdrLine numHdrLines d hm _ _
    have hgt : ¬ hdrLine ≤ numHdrLines := by omega
    cases lines with
    | nil => exact ⟨d, by simp only [readHeaderLoop, if_neg hgt, List.drop_zero]⟩
    | cons l rest => exact ⟨d, by simp only [readHeaderLoop, if_neg hgt, List.drop_zero]⟩
  | succ m ih =>
    intro lines hdrLine numHdrLines d hm hlen hok
    have hle : hdrLine ≤ numHdrLines := by omega
    cases lines with
    | nil => simp at hlen
    | cons l rest =>
      obtain ⟨hlen2, hmem⟩ := hok l (by
        rw [List.take_succ_cons]
        exact List.mem_cons_self l _)
      rcases hsp : pySplit l with _ | ⟨t0, tl⟩
      · rw [hsp] at hlen2; simp at hlen2
      rcases tl with _ | ⟨t1, ts⟩
      · rw [hsp] at hlen2; simp at hlen2
      rw [hsp] at hmem
      obtain ⟨d2, hd2⟩ := ih rest (hdrLine + 1) numHdrLines (dictSet d (pyDropLast t0) t1)
        (by omega) (by simpa using hlen)
        (fun l2 hl2 => hok l2 (by
          rw [List.take_succ_cons]
          exact List.mem_cons_of_mem l hl2))
      refine ⟨d2, ?_⟩
      simp only [readHeaderLoop, if_pos hle, hsp, hmem, Bool.false_eq_true, if_false,
        List.drop_succ_cons]
      exact hd2

/-! ### The claims -/

/-- Claim C1, amended.  When the header's `sensors_per_cycle` value `n`
differs from the data rows' token width `w`, a non-fatal warning carrying
both counts `(n, w)` is emitted and parsing continues — but the warning
compares `n` with the data width, not with the metadata column count, and
the name-to-column mapping is built for exactly the first `n` metadata
column names: the header's declared count does drive which columns are
built (only the ordered key list `data_keys` holds all metadata names). -/
theorem c1_header_count_drives_columns
    (l1 l2 l3 : String) (rows : List String) (hdr : List (String × String))
    (s : String) (n : Int) (w : Nat)
    (hs : dictGet? hdr "sensors_per_cycle" = some s)
    (hn : pyInt? s = some n)
    (hw : shape1? (rows.map pySplit) = some w)
    (hkL : n.toNat ≤ (pySplit l1).length)
    (hkT : n.toNat ≤ (pySplit l2).length)
    (hkB : n.toNat ≤ (pySplit l3).length)
    (hkw : n.toNat ≤ w)
    (hB : ∀ b ∈ (pySplit l3).take n.toNat, (pyInt? b).isSome = true) :
    ∃ dd, readData (l1 :: l2 :: l3 :: rows) hdr
        = .ok (dd, pySplit l1, if n = (w : Int) then none else some (n, (w : Int)))
      ∧ ∀ x, (hasKey dd x = true ↔ x ∈ (pySplit l1).take n.toNat) :=
  readData_ok_keys l1 l2 l3 rows hdr s n w hs hn hw hkL hkT hkB hkw hB

/-- Witness for C1: header declares 1 sensor, the metadata and data rows
have 2 columns; the parse warns with `(1, 2)` and builds 1 column. -/
theorem c1_header_count_drives_columns_witness :
    ∃ dd, readData ["aa bb", "u v", "4 4", "7 8", "9 10"] [("sensors_per_cycle", "1")]
        = .ok (dd, pySplit "aa bb",
            if (1 : Int) = ((2 : Nat) : Int) then none else some (1, ((2 : Nat) : Int)))
      ∧ ∀ x, (hasKey dd x = true ↔ x ∈ (pySplit "aa bb").take (1 : Int).toNat) :=
  c1_header_count_drives_columns "aa bb" "u v" "4 4" ["7 8", "9 10"]
    [("sensors_per_cycle", "1")] "1" 1 2 rfl rfl rfl (by decide) (by decide)
    (by decide) (by decide) (by decide)

/-- Counterexample to claim C1 as stated: with metadata column count `L = 3`
and header-declared count 2, the parse succeeds but the resulting table has
entries for only the first 2 column names (`"c"` is absent), not one entry
per metadata column name; the declared count drove which columns were
built. -/
theorem c1_counterexample :
    readData ["a b c", "degC S bar", "4 4 4", "10 20 30", "11 21 31"]
        [("sensors_per_cycle", "2")]
      = .ok ([("a", ⟨"a", "degC", 4, ["10", "11"]⟩),
              ("b", ⟨"b", "S", 4, ["20", "21"]⟩)],
             ["a", "b", "c"], some (2, 3))
    ∧ (pySplit "a b c").length = 3
    ∧ hasKey [("a", (⟨"a", "degC", 4, ["10", "11"]⟩ : ColumnRecord)),
              ("b", ⟨"b", "S", 4, ["20", "21"]⟩)] "c" = false :=
  ⟨rfl, rfl, rfl⟩

/-- Claim C2 is right about the intended behaviour but the code does not
implement it: the override test is `'num_ascii_tags' in split_line`, i.e. a
membership test of the colon-less literal among the raw tokens, while a
header line carrying that tag reads `num_ascii_tags: 2` and tokenizes to
`["num_ascii_tags:", "2"]`.  The test therefore never fires on a line whose
(colon-stripped) tag is `num_ascii_tags`, and the loop still consumes the
default 14 lines: here a 16-line file whose first line declares 2 header
lines is read with 14 header lines consumed (only the last two remain). -/
theorem c2_ascii_tag_override_never_fires :
    pyDropLast ((pySplit "num_ascii_tags: 2").getD 0 "") = "num_ascii_tags"
    ∧ pyInt? ((pySplit "num_ascii_tags: 2").getD 1 "") = some 2
    ∧ readHeader ("num_ascii_tags: 2" :: List.replicate 13 "t: 0" ++ ["d1 x", "d2 y"])
        = .ok ([("num_ascii_tags", "2"), ("t", "0")], ["d1 x", "d2 y"])
    ∧ ("num_ascii_tags: 2" :: List.replicate 13 "t: 0" ++ ["d1 x", "d2 y"]).length = 16 :=
  ⟨rfl, rfl, rfl, rfl⟩

/-- Claim C3 is right about the schema walk but the code never returns the
record it builds: `build_parsed_values` populates its local `result` list —
in schema order, raising `KeyError` naming the first missing column — and
then falls off the end with no `return` statement, so every successful call
returns `None` instead of the pair list (the function's own docstring says
`result` is returned). -/
theorem c3_build_parsed_values_returns_none :
    extractLoop [("a", ⟨"a", "u1", 4, ["1", "2"]⟩), ("b", ⟨"b", "u2", 2, ["3", "4"]⟩)]
        ["b", "a"]
      = .ok [("b", ["3", "4"]), ("a", ["1", "2"])]
    ∧ buildParsedValues
        [("a", ⟨"a", "u1", 4, ["1", "2"]⟩), ("b", ⟨"b", "u2", 2, ["3", "4"]⟩)]
        ["b", "a"] = .ok none
    ∧ buildParsedValues
        [("a", ⟨"a", "u1", 4, ["1", "2"]⟩), ("b", ⟨"b", "u2", 2, ["3", "4"]⟩)]
        ["b", "zz", "a"] = .error (.keyError "zz") :=
  ⟨rfl, rfl, rfl⟩

/-- Claim C4, amended.  The three metadata rows are never compared for
length: unequal token counts among them are tolerated, and the table parse
still succeeds provided each metadata row has at least `sensors_per_cycle`
tokens (a shorter row raises `IndexError` — not a `FormatError`, which the
code does not have). -/
theorem c4_unequal_metadata_rows_tolerated
    (l1 l2 l3 : String) (rows : List String) (hdr : List (String × String))
    (s : String) (n : Int) (w : Nat)
    (hs : dictGet? hdr "sensors_per_cycle" = some s)
    (hn : pyInt? s = some n)
    (hw : shape1? (rows.map pySplit) = some w)
    (hkL : n.toNat ≤ (pySplit l1).length)
    (hkT : n.toNat ≤ (pySplit l2).length)
    (hkB : n.toNat ≤ (pySplit l3).length)
    (hkw : n.toNat ≤ w)
    (hB : ∀ b ∈ (pySplit l3).take n.toNat, (pyInt? b).isSome = true)
    (_hne : (pySplit l1).length ≠ (pySplit l2).length) :
    ∃ dd warn, readData (l1 :: l2 :: l3 :: rows) hdr = .ok (dd, pySplit l1, warn) := by
  obtain ⟨dd, hdd, -⟩ := readData_ok_keys l1 l2 l3 rows hdr s n w hs hn hw hkL hkT hkB hkw hB
  exact ⟨dd, _, hdd⟩

/-- Witness for C4: metadata rows of 2, 3 and 2 tokens, yet the parse
succeeds. -/
theorem c4_unequal_metadata_rows_tolerated_witness :
    ∃ dd warn, readData ["p q", "r s t", "8 8", "5 6"] [("sensors_per_cycle", "2")]
        = .ok (dd, pySplit "p q", warn) :=
  c4_unequal_metadata_rows_tolerated "p q" "r s t" "8 8" ["5 6"]
    [("sensors_per_cycle", "2")] "2" 2 2 rfl rfl rfl (by decide) (by decide)
    (by decide) (by decide) (by decide) (by decide)

/-- Counterexample to claim C4 as stated: the three metadata rows split
into 2, 3 and 2 tokens — unequal — yet the parse succeeds with a table;
no `FormatError` (nor any error) occurs. -/
theorem c4_counterexample :
    readData ["a b", "t u v", "4 4", "1 2"] [("sensors_per_cycle", "2")]
      = .ok ([("a", ⟨"a", "t", 4, ["1"]⟩), ("b", ⟨"b", "u", 4, ["2"]⟩)],
             ["a", "b"], none)
    ∧ (pySplit "a b").length ≠ (pySplit "t u v").length :=
  ⟨rfl, by decide⟩

/-- Claim C5, amended.  What makes a data row fatal is disagreeing with the
*other data rows* (ragged data): then `numpy.array` builds a 1-D object
array and `data_array.shape[1]` raises `IndexError` (not a `FormatError`),
aborting the parse.  A row count differing from the metadata column count
`L` alone is not an error (see the counterexample). -/
theorem c5_ragged_rows_fail
    (l1 l2 l3 : String) (rows : List String) (hdr : List (String × String))
    (s : String) (n : Int)
    (hs : dictGet? hdr "sensors_per_cycle" = some s)
    (hn : pyInt? s = some n)
    (hragged : shape1? (rows.map pySplit) = none) :
    readData (l1 :: l2 :: l3 :: rows) hdr = .error .indexError :=
  readData_ragged l1 l2 l3 rows hdr s n hs hn hragged

/-- Witness for C5: two data rows of 2 and 1 tokens abort the parse. -/
theorem c5_ragged_rows_fail_witness :
    readData ["a b c", "t u v", "4 4 4", "1 2", "3"] [("sensors_per_cycle", "3")]
      = .error .indexError :=
  c5_ragged_rows_fail "a b c" "t u v" "4 4 4" ["1 2", "3"]
    [("sensors_per_cycle", "3")] "3" 3 rfl rfl rfl

/-- Counterexample to claim C5 as stated: every data row has 2 tokens while
the metadata rows determine `L = 3`; the claim demands a `FormatError` with
no table, but the parse succeeds and returns a table. -/
theorem c5_counterexample :
    readData ["a b c", "t u v", "4 4 4", "1 2", "3 4"] [("sensors_per_cycle", "2")]
      = .ok ([("a", ⟨"a", "t", 4, ["1", "3"]⟩), ("b", ⟨"b", "u", 4, ["2", "4"]⟩)],
             ["a", "b", "c"], none)
    ∧ (pySplit "1 2").length ≠ (pySplit "a b c").length :=
  ⟨rfl, by decide⟩

/-- Claim C6, amended.  `__init__` runs `_read_header(); _read_data();
self._fid.close()` with no `try/finally`: the stream is closed exactly when
both phases succeed, and every fatal parse failure propagates with the
stream left open. -/
theorem c6_stream_closed_iff_success (lines : List String) :
    (gliderInit lines).closed = exceptOk (gliderInit lines).result := by
  rcases hh : readHeader lines with e | hd
  · simp only [gliderInit, hh]
    rfl
  · simp only [gliderInit, hh]
    rcases hr : readData hd.2 hd.1 with e2 | r <;> simp only [hr] <;> rfl

/-- Counterexample to claim C6 as stated: on the empty input the header
phase fails with `IndexError` and the stream is *not* closed on that exit
path. -/
theorem c6_counterexample :
    (gliderInit []).closed = false ∧ (gliderInit []).result = .error .indexError :=
  ⟨rfl, rfl⟩

/-- Claim C7, amended.  Individual cell tokens are stored verbatim, but the
per-row round trip only recovers a *normalized, truncated* form of the row:
walking the first `sensors_per_cycle` column labels and joining their
stored tokens at row `j` with single spaces yields the single-space join of
the first `sensors_per_cycle` whitespace tokens of the original row.  It
equals the original row text only when that row was already single-space
separated, had no surrounding whitespace, and the declared count covers all
its tokens. -/
theorem c7_roundtrip_normalized
    (l1 l2 l3 : String) (rows : List String) (hdr : List (String × String))
    (s : String) (n : Int) (w j : Nat)
    (hs : dictGet? hdr "sensors_per_cycle" = some s)
    (hn : pyInt? s = some n)
    (hw : shape1? (rows.map pySplit) = some w)
    (hkL : n.toNat ≤ (pySplit l1).length)
    (hkT : n.toNat ≤ (pySplit l2).length)
    (hkB : n.toNat ≤ (pySplit l3).length)
    (hkw : n.toNat ≤ w)
    (hB : ∀ b ∈ (pySplit l3).take n.toNat, (pyInt? b).isSome = true)
    (hnd : ((pySplit l1).take n.toNat).Nodup)
    (hj : j < rows.length) :
    ∃ dd warn, readData (l1 :: l2 :: l3 :: rows) hdr = .ok (dd, pySplit l1, warn)
      ∧ storedRow dd (pySplit l1) n.toNat j = (pySplit (rows.getD j "")).take n.toNat
      ∧ spaceJoin (storedRow dd (pySplit l1) n.toNat j)
          = spaceJoin ((pySplit (rows.getD j "")).take n.toNat) := by
  obtain ⟨dd, warn, hdd, hlook⟩ :=
    readData_lookup l1 l2 l3 rows hdr s n w hs hn hw hkL hkT hkB hkw hB hnd
  have hjm : j < (rows.map pySplit).length := by
    rw [List.length_map]
    exact hj
  have hrow : (rows.map pySplit).getD j [] = pySplit (rows.getD j "") :=
    map_getD_lt rows pySplit j "" [] hj
  have hrowlen : (pySplit (rows.getD j "")).length = w := by
    apply shape1?_len (rows.map pySplit) w hw
    rw [← hrow]
    exact get?_mem_of_some (rows.map pySplit) j _ (get?_eq_some_getD _ j [] hjm)
  have hsr : storedRow dd (pySplit l1) n.toNat j
      = (pySplit (rows.getD j "")).take n.toNat := by
    rw [storedRow,
      ← range_map_getD (pySplit (rows.getD j "")) n.toNat "" (by omega)]
    apply List.map_congr_left
    intro ii hii
    rw [List.mem_range] at hii
    obtain ⟨nb, -, hget⟩ := hlook ii hii
    rw [hget]
    show (colData (rows.map pySplit) ii).getD j "" = (pySplit (rows.getD j "")).getD ii ""
    rw [colData, map_getD_lt (rows.map pySplit) (fun r => r.getD ii "") j [] "" hjm, hrow]
  exact ⟨dd, warn, hdd, hsr, congrArg spaceJoin hsr⟩

/-- Witness for C7: a two-column file with two single-space data rows; the
stored tokens of row 0 re-join to the first two tokens of that row. -/
theorem c7_roundtrip_normalized_witness :
    ∃ dd warn, readData ["a b", "t u", "4 4", "10 20", "30 40"]
          [("sensors_per_cycle", "2")]
        = .ok (dd, pySplit "a b", warn)
      ∧ storedRow dd (pySplit "a b") (2 : Int).toNat 0
          = (pySplit (["10 20", "30 40"].getD 0 "")).take (2 : Int).toNat
      ∧ spaceJoin (storedRow dd (pySplit "a b") (2 : Int).toNat 0)
          = spaceJoin ((pySplit (["10 20", "30 40"].getD 0 "")).take (2 : Int).toNat) :=
  c7_roundtrip_normalized "a b" "t u" "4 4" ["10 20", "30 40"]
    [("sensors_per_cycle", "2")] "2" 2 2 0 rfl rfl rfl (by decide) (by decide)
    (by decide) (by decide) (by decide) (by decide) (by decide)

/-- Counterexample to claim C7 as stated: the data row `"10  20"` (two
spaces) parses successfully, but re-joining the stored tokens with single
spaces yields `"10 20"`, which is not the original data row text. -/
theorem c7_counterexample :
    readData ["a b", "t u", "4 4", "10  20"] [("sensors_per_cycle", "2")]
      = .ok ([("a", ⟨"a", "t", 4, ["10"]⟩), ("b", ⟨"b", "u", 4, ["20"]⟩)],
             ["a", "b"], none)
    ∧ spaceJoin (storedRow [("a", (⟨"a", "t", 4, ["10"]⟩ : ColumnRecord)),
          ("b", ⟨"b", "u", 4, ["20"]⟩)] ["a", "b"] 2 0) = "10 20"
    ∧ "10 20" ≠ "10  20" :=
  ⟨rfl, rfl, by decide⟩

/-- Claim C8, confirmed.  A header whose first 14 lines are processable
(at least two tokens each) and trigger no `num_ascii_tags` override is read
by consuming exactly the default 14 lines; the table phase then starts at
line 15. -/
theorem c8_default_header_is_fourteen_lines (lines : List String)
    (hlen : 14 ≤ lines.length)
    (hok : ∀ l ∈ lines.take 14, 2 ≤ (pySplit l).length ∧
      pyMem "num_ascii_tags" (pySplit l) = false) :
    ∃ d, readHeader lines = .ok (d, lines.drop 14) := by
  obtain ⟨d2, hd2⟩ :=
    readHeaderLoop_no_override 14 lines 1 14 [] (by norm_num) hlen hok
  exact ⟨d2, hd2⟩

/-- Witness for C8: fifteen lines with no override; exactly the first 14
are consumed. -/
theorem c8_default_header_is_fourteen_lines_witness :
    ∃ d, readHeader (List.replicate 14 "t: 0" ++ ["data row"])
      = .ok (d, (List.replicate 14 "t: 0" ++ ["data row"]).drop 14) :=
  c8_default_header_is_fourteen_lines (List.replicate 14 "t: 0" ++ ["data row"])
    (by decide) (by decide)

/-- Claim C9, confirmed.  For any processed header line (at least two
tokens), the entry stored in `hdr_dict` is keyed by the first token with
its final character removed unconditionally (`split_line[0][:-1]` — a tag
without a trailing colon loses its last character), the value is exactly
the second token, and all further tokens are discarded; this holds whether
or not the override test fires. -/
theorem c9_header_key_value_storage
    (line : String) (rest : List String) (hdrLine numHdrLines : Int)
    (d : List (String × String)) (t0 t1 : String) (ts : List String)
    (hsplit : pySplit line = t0 :: t1 :: ts)
    (hle : hdrLine ≤ numHdrLines) :
    readHeaderLoop (line :: rest) hdrLine numHdrLines d
      = if pyMem "num_ascii_tags" (pySplit line) then
          match pyInt? t1 with
          | some n2 => readHeaderLoop rest (hdrLine + 1) n2 (dictSet d (pyDropLast t0) t1)
          | none => Except.error PyError.valueError
        else
          readHeaderLoop rest (hdrLine + 1) numHdrLines (dictSet d (pyDropLast t0) t1) := by
  simp only [readHeaderLoop, if_pos hle, hsplit]

/-- Witness for C9: the colon-less line `"foo bar baz"` stores key `"fo"`
(last character lost) with value `"bar"`, discarding `"baz"`. -/
theorem c9_header_key_value_storage_witness :
    readHeaderLoop ["foo bar baz"] 1 1 [] = .ok ([("fo", "bar")], []) :=
  (c9_header_key_value_storage "foo bar baz" [] 1 1 [] "foo" "bar" ["baz"] rfl
    (by norm_num)).trans rfl

/-- Claim C10, amended.  After a successful parse `data_keys` is the entire
first metadata row and the mapping holds exactly the first
`sensors_per_cycle` labels; the ordered key list therefore contains a name
absent from the mapping *provided* some label beyond the declared count
does not also occur among the first `sensors_per_cycle` labels (with
duplicated labels the key list can be fully covered — see the
counterexample). -/
theorem c10_data_keys_exceed_mapping
    (l1 l2 l3 : String) (rows : List String) (hdr : List (String × String))
    (s : String) (n : Int) (w : Nat) (x0 : String)
    (hs : dictGet? hdr "sensors_per_cycle" = some s)
    (hn : pyInt? s = some n)
    (hw : shape1? (rows.map pySplit) = some w)
    (hkL : n.toNat ≤ (pySplit l1).length)
    (hkT : n.toNat ≤ (pySplit l2).length)
    (hkB : n.toNat ≤ (pySplit l3).length)
    (hkw : n.toNat ≤ w)
    (hB : ∀ b ∈ (pySplit l3).take n.toNat, (pyInt? b).isSome = true)
    (hx0 : x0 ∈ pySplit l1)
    (hx0n : x0 ∉ (pySplit l1).take n.toNat) :
    ∃ dd warn, readData (l1 :: l2 :: l3 :: rows) hdr = .ok (dd, pySplit l1, warn)
      ∧ (∀ x, (hasKey dd x = true ↔ x ∈ (pySplit l1).take n.toNat))
      ∧ x0 ∈ pySplit l1 ∧ hasKey dd x0 = false := by
  obtain ⟨dd, hdd, hkeys⟩ :=
    readData_ok_keys l1 l2 l3 rows hdr s n w hs hn hw hkL hkT hkB hkw hB
  refine ⟨dd, _, hdd, hkeys, hx0, ?_⟩
  cases hcase : hasKey dd x0 with
  | false => rfl
  | true => exact absurd ((hkeys x0).mp hcase) hx0n

/-- Witness for C10: three labels, declared count 2; label `"c"` is in
`data_keys` but has no mapping entry. -/
theorem c10_data_keys_exceed_mapping_witness :
    ∃ dd warn, readData ["a b c", "t u v", "4 4 4", "1 2 3"]
          [("sensors_per_cycle", "2")]
        = .ok (dd, pySplit "a b c", warn)
      ∧ (∀ x, (hasKey dd x = true ↔ x ∈ (pySplit "a b c").take (2 : Int).toNat))
      ∧ "c" ∈ pySplit "a b c" ∧ hasKey dd "c" = false :=
  c10_data_keys_exceed_mapping "a b c" "t u v" "4 4 4" ["1 2 3"]
    [("sensors_per_cycle", "2")] "2" 2 3 "c" rfl rfl rfl (by decide) (by decide)
    (by decide) (by decide) (by decide) (by decide) (by decide)

/-- Counterexample to claim C10 as stated: with duplicated labels
`"a b a"` and declared count 2 (smaller than the 3 labels), every name in
the ordered key list `["a", "b", "a"]` does have a mapping entry — the
claimed consequence fails. -/
theorem c10_counterexample :
    readData ["a b a", "t u v", "4 4 4", "1 2 3"] [("sensors_per_cycle", "2")]
      = .ok ([("a", ⟨"a", "t", 4, ["1"]⟩), ("b", ⟨"b", "u", 4, ["2"]⟩)],
             ["a", "b", "a"], some (2, 3))
    ∧ (∀ x ∈ ["a", "b", "a"],
        hasKey [("a", (⟨"a", "t", 4, ["1"]⟩ : ColumnRecord)),
                ("b", ⟨"b", "u", 4, ["2"]⟩)] x = true)
    ∧ (2 : Int).toNat < (pySplit "a b a").length :=
  ⟨rfl, by decide, by decide⟩
